import Mathlib

/-!
# Verification of the GPR boundary computation (`process_gpr_excel` in src/app.py)

This file gives a shallow embedding of the single piece of genuine logic in
the repository: the function `process_gpr_excel`, which takes a spreadsheet
table, locates the layer-thickness columns by substring match on normalized
column names, and computes per-row cumulative depth boundaries with a
"stop at first missing value" truncation rule, plus a derived chainage
column.

Modelling choices:
* A spreadsheet cell (as delivered by `pandas.read_excel` and read back by
  `row.get(name)`) is one of: Python `None`, a float `NaN` (pandas' missing
  marker), a float `±inf`, a finite float, or a string.  Finite float values
  are modelled exactly as rationals (`ℚ`); IEEE rounding of additions is
  abstracted to exact rational addition, which is the arithmetic the spec's
  equations (`boundary[i] == sum(values[0..i])`) describe.
* A string cell is classified by what Python's `float()` does with it:
  it yields a finite value, `inf`, `-inf`, `nan`, or raises `ValueError`.
* The special float values `inf`/`-inf`/`nan` are kept symbolic in `PyFloat`
  with the exact IEEE addition rules on them.
* Column selection `df[layer_cols]` is modelled by the positions of the
  matching columns (the behaviour of pandas when the normalized column
  names are distinct).
-/

attribute [local semireducible] Rat.add Rat.mul Rat.ofScientific

/-- Classification of a string cell by the behaviour of Python's `float()`:
`numStr q` is a string parsed to the finite value `q` (e.g. `"5.0"`),
`infStr`/`ninfStr`/`nanStr` are strings such as `"inf"`, `"-inf"`, `"nan"`
which `float()` accepts, and `bad` is a string on which `float()` raises. -/
inductive StrVal : Type where
  | numStr (q : ℚ)
  | infStr
  | ninfStr
  | nanStr
  | bad
deriving DecidableEq

/-- A raw spreadsheet cell as seen by the row loop of `process_gpr_excel`. -/
inductive Cell : Type where
  | pynone
  | nanCell
  | pinfCell
  | ninfCell
  | num (q : ℚ)
  | str (s : StrVal)
deriving DecidableEq

/-- A Python float value: a finite value (exact rational), `inf`, `-inf`
or `nan`. -/
inductive PyFloat : Type where
  | fin (q : ℚ)
  | pinf
  | ninf
  | nan
deriving DecidableEq

/-- IEEE addition on `PyFloat`, with finite addition modelled exactly:
`nan` propagates, `inf + -inf = nan`, an infinity absorbs finite values. -/
def pyAdd : PyFloat → PyFloat → PyFloat
  | .nan, _ => .nan
  | _, .nan => .nan
  | .pinf, .ninf => .nan
  | .ninf, .pinf => .nan
  | .pinf, _ => .pinf
  | _, .pinf => .pinf
  | .ninf, _ => .ninf
  | _, .ninf => .ninf
  | .fin a, .fin b => .fin (a + b)

/-- The break guard of the row loop:
`v is None or (isinstance(v, float) and np.isnan(v))`. -/
def isMissing : Cell → Bool
  | .pynone => true
  | .nanCell => true
  | _ => false

/-- `float(v)`: `some` of the converted value, `none` when it raises. -/
def tryFloat : Cell → Option PyFloat
  | .pynone => none
  | .nanCell => some .nan
  | .pinfCell => some .pinf
  | .ninfCell => some .ninf
  | .num q => some (.fin q)
  | .str (.numStr q) => some (.fin q)
  | .str .infStr => some .pinf
  | .str .ninfStr => some .ninf
  | .str .nanStr => some .nan
  | .str .bad => none

/-- A cell survives one iteration of the row loop: it is not the missing
marker and `float()` succeeds on it. -/
def cellOk (c : Cell) : Bool := !isMissing c && (tryFloat c).isSome

/-- The finite numeric value of a cell, when the row loop both accepts the
cell and obtains a finite number from it. -/
def cellFin (c : Cell) : Option ℚ :=
  if isMissing c then none
  else match tryFloat c with
    | some (.fin q) => some q
    | _ => none

/-- The inner loop of `process_gpr_excel`: starting from the running sum
`rs`, consume cells left to right; stop at the first cell that is missing or
on which `float()` raises; otherwise add the value to the running sum and
record it.  Returns the list `cumsums` of recorded running sums. -/
def rowLoop : PyFloat → List Cell → List PyFloat
  | _, [] => []
  | rs, v :: rest =>
    if isMissing v then []
    else
      match tryFloat v with
      | none => []
      | some f => pyAdd rs f :: rowLoop (pyAdd rs f) rest

/-- One full row of the boundary computation: run the loop with running sum
`0`, then pad with `None` (`while len(cumsums) < n: cumsums.append(None)`). -/
def processRow (n : ℕ) (vals : List Cell) : List (Option PyFloat) :=
  let cumsums := (rowLoop (.fin 0) vals).map some
  cumsums ++ List.replicate (n - cumsums.length) none

/-- Strip leading and trailing whitespace from a character list
(`str.strip()`). -/
def stripChars (l : List Char) : List Char :=
  ((l.dropWhile Char.isWhitespace).reverse.dropWhile Char.isWhitespace).reverse

/-- `str(col).strip().lower()` on a column name, implemented on the
character list of the string. -/
def normalizeCol (s : String) : String :=
  String.mk ((stripChars s.data).map Char.toLower)

/-- `l` starts with the pattern `p`. -/
def leadsWith : List Char → List Char → Bool
  | [], _ => true
  | _ :: _, [] => false
  | p :: ps, c :: cs => p == c && leadsWith ps cs

/-- The pattern `p` occurs as a contiguous run somewhere in `l`. -/
def hasSub (p : List Char) : List Char → Bool
  | [] => leadsWith p []
  | c :: cs => leadsWith p (c :: cs) || hasSub p cs

/-- Python's `"layer" in col`: the string contains `"layer"`. -/
def hasLayer (s : String) : Bool := hasSub "layer".data s.data

/-- Positions of the columns whose normalized name contains `"layer"`,
in header order (`layer_cols` in the source, as column positions). -/
def layerIdxs (header : List String) : List ℕ :=
  ((header.map normalizeCol).enum.filter (fun p => hasLayer p.2)).map (fun p => p.1)

/-- `std_names = ["Layer 1", "Layer 2", "Layer 3", "Layer 4"]`. -/
def std_names : List String := ["Layer 1", "Layer 2", "Layer 3", "Layer 4"]

/-- An input table: header row and cell rows (`pandas` keeps the table
rectangular, filling absent cells with `NaN`; reading a position beyond a
row defaults to the `NaN` cell accordingly). -/
structure DataFrame : Type where
  header : List String
  rows : List (List Cell)
deriving DecidableEq

/-- One row of the processed table: the derived chainage, the passthrough
layer cells, and the boundary column entries for this row. -/
structure OutRow : Type where
  chainage : ℚ
  layers : List Cell
  boundary : List (Option PyFloat)
deriving DecidableEq

/-- The processed table: its column names, in order, and its rows. -/
structure OutFrame : Type where
  columns : List String
  rows : List OutRow
deriving DecidableEq

/-- `df[layer_cols]` restricted to one row: the cells of `row` at the
selected column positions. -/
def extractVals (idxs : List ℕ) (row : List Cell) : List Cell :=
  idxs.map (fun j => row.getD j Cell.nanCell)

/-- Build the output row at 0-based position `i`: chainage `(i+1)*0.25`,
the selected layer cells, and their boundary entries. -/
def mkOutRow (idxs : List ℕ) (i : ℕ) (row : List Cell) : OutRow :=
  { chainage := ((i : ℚ) + 1) * 0.25
    layers := extractVals idxs row
    boundary := processRow idxs.length (extractVals idxs row) }

/-- Process the rows in order, numbering them from `i`. -/
def buildRows (idxs : List ℕ) : ℕ → List (List Cell) → List OutRow
  | _, [] => []
  | i, row :: rest => mkOutRow idxs i row :: buildRows idxs (i + 1) rest

/-- The embedding of `process_gpr_excel` (src/app.py): normalize the column
names, locate the columns containing `"layer"`, require at least 3 of them
(else `st.error` + `return None`, modelled as `none`), keep the first 4,
rename them to `std_names`, insert the chainage column, compute the
boundary columns row by row. -/
def process_gpr_excel (df : DataFrame) : Option OutFrame :=
  let layer_cols := layerIdxs df.header
  if layer_cols.length < 3 then none
  else
    let idxs := layer_cols.take 4
    let names := std_names.take idxs.length
    some { columns := "Chainage" :: (names ++ names.map (fun s => s ++ "_boundary"))
           rows := buildRows idxs 0 df.rows }

/-- Partial sums of a list of rationals, starting from `a`: the sequence of
running sums produced by `running_sum += value` on an all-numeric row. -/
def cumSumsFrom (a : ℚ) : List ℚ → List ℚ
  | [] => []
  | q :: rest => (a + q) :: cumSumsFrom (a + q) rest

/-! ### Concrete fixtures used by witnesses and counterexamples -/

/-- A table with layer row `[10, missing, 7]`. -/
def dfGap : DataFrame :=
  { header := ["layer 1", "layer 2", "layer 3"]
    rows := [[.num 10, .nanCell, .num 7]] }

/-- A fully numeric one-row table with layer values `1, 2, 4`. -/
def dfNum : DataFrame :=
  { header := ["layer 1", "layer 2", "layer 3"]
    rows := [[.num 1, .num 2, .num 4]] }

/-- A table whose layer columns have descriptive names. -/
def dfNamed : DataFrame :=
  { header := ["asphalt layer", "base layer", "subbase layer"]
    rows := [[.num 1, .num 2, .num 3]] }

/-- A table with five layer columns. -/
def dfFiveA : DataFrame :=
  { header := ["layer 1", "layer 2", "layer 3", "layer 4", "layer 5"]
    rows := [[.num 1, .num 2, .num 3, .num 4, .num 5]] }

/-- `dfFiveA` with a different value in the fifth layer column. -/
def dfFiveB : DataFrame :=
  { header := ["layer 1", "layer 2", "layer 3", "layer 4", "layer 5"]
    rows := [[.num 1, .num 2, .num 3, .num 4, .num 99]] }

/-- A table whose single row has the first layer missing. -/
def dfFirstGap : DataFrame :=
  { header := ["layer 1", "layer 2", "layer 3"]
    rows := [[.nanCell, .num 5, .num 3]] }

/-- A two-layer-column table (below the minimum of 3). -/
def dfTwoCols : DataFrame :=
  { header := ["layer 1", "layer 2", "depth"]
    rows := [[.num 1, .num 2, .num 3]] }

/-- The column names of a processed 3-layer table. -/
def cols3 : List String :=
  ["Chainage", "Layer 1", "Layer 2", "Layer 3",
   "Layer 1_boundary", "Layer 2_boundary", "Layer 3_boundary"]

/-- The processed row of `dfNum`. -/
def rowNum : OutRow :=
  { chainage := 0.25
    layers := [.num 1, .num 2, .num 4]
    boundary := [some (.fin 1), some (.fin 3), some (.fin 7)] }

/-- The processed table of `dfNum`. -/
def outNum : OutFrame := { columns := cols3, rows := [rowNum] }

/-- The processed row of `dfGap`. -/
def rowGap : OutRow :=
  { chainage := 0.25
    layers := [.num 10, .nanCell, .num 7]
    boundary := [some (.fin 10), none, none] }

/-- The processed table of `dfGap`. -/
def outGap : OutFrame := { columns := cols3, rows := [rowGap] }

/-- The processed row of `dfFirstGap`. -/
def rowFirstGap : OutRow :=
  { chainage := 0.25
    layers := [.nanCell, .num 5, .num 3]
    boundary := [none, none, none] }

/-- The processed table of `dfFirstGap`. -/
def outFirstGap : OutFrame := { columns := cols3, rows := [rowFirstGap] }

/-- The processed table of `dfNamed`. -/
def outNamed : OutFrame :=
  { columns := cols3
    rows := [{ chainage := 0.25
               layers := [.num 1, .num 2, .num 3]
               boundary := [some (.fin 1), some (.fin 3), some (.fin 6)] }] }

/-! ### Basic lemmas about cells and the row loop -/

theorem cellFin_eq_some {c : Cell} {q : ℚ} (h : cellFin c = some q) :
    isMissing c = false ∧ tryFloat c = some (.fin q) := by
  cases c with
  | pynone => simp [cellFin, isMissing] at h
  | nanCell => simp [cellFin, isMissing] at h
  | pinfCell => simp [cellFin, isMissing, tryFloat] at h
  | ninfCell => simp [cellFin, isMissing, tryFloat] at h
  | num q' =>
    simp [cellFin, isMissing, tryFloat] at h
    simp [isMissing, tryFloat, h]
  | str sv =>
    cases sv <;> simp_all [cellFin, isMissing, tryFloat]

theorem rowLoop_cons_ok {v : Cell} {f : PyFloat} (hm : isMissing v = false)
    (hf : tryFloat v = some f) (rs : PyFloat) (rest : List Cell) :
    rowLoop rs (v :: rest) = pyAdd rs f :: rowLoop (pyAdd rs f) rest := by
  simp [rowLoop, hm, hf]

theorem rowLoop_cons_stop {v : Cell} (h : cellOk v = false) (rs : PyFloat)
    (rest : List Cell) : rowLoop rs (v :: rest) = [] := by
  by_cases hm : isMissing v = true
  · simp [rowLoop, hm]
  · simp only [Bool.not_eq_true] at hm
    cases htf : tryFloat v with
    | none => simp [rowLoop, hm, htf]
    | some f => simp [cellOk, hm, htf] at h

theorem rowLoop_all_fin : ∀ (vals : List Cell) (qs : List ℚ) (a : ℚ),
    vals.map cellFin = qs.map some →
    rowLoop (.fin a) vals = (cumSumsFrom a qs).map PyFloat.fin
  | [], qs, a, h => by
    cases qs with
    | nil => simp [rowLoop, cumSumsFrom]
    | cons q qs' => simp at h
  | v :: rest, qs, a, h => by
    cases qs with
    | nil => simp at h
    | cons q qs' =>
      simp only [List.map_cons, List.cons.injEq] at h
      obtain ⟨hv, hrest⟩ := h
      obtain ⟨hm, hf⟩ := cellFin_eq_some hv
      rw [rowLoop_cons_ok hm hf]
      have : pyAdd (.fin a) (.fin q) = .fin (a + q) := rfl
      rw [this, rowLoop_all_fin rest qs' (a + q) hrest]
      simp [cumSumsFrom]

theorem cumSumsFrom_length : ∀ (qs : List ℚ) (a : ℚ),
    (cumSumsFrom a qs).length = qs.length
  | [], _ => rfl
  | q :: rest, a => by simp [cumSumsFrom, cumSumsFrom_length rest]

theorem cumSumsFrom_get? : ∀ (qs : List ℚ) (a : ℚ) (i : ℕ), i < qs.length →
    (cumSumsFrom a qs).get? i = some (a + (qs.take (i + 1)).sum)
  | [], _, i, hi => by simp at hi
  | q :: rest, a, 0, _ => by simp [cumSumsFrom]
  | q :: rest, a, i + 1, hi => by
    simp only [List.length_cons, Nat.add_lt_add_iff_right] at hi
    simp only [cumSumsFrom, List.get?_cons_succ]
    rw [cumSumsFrom_get? rest (a + q) i hi]
    simp [add_assoc]

theorem rowLoop_length_of_fail : ∀ (vals : List Cell) (k : ℕ) (rs : PyFloat)
    (c : Cell), vals.get? k = some c → cellOk c = false →
    (∀ m c', m < k → vals.get? m = some c' → cellOk c' = true) →
    (rowLoop rs vals).length = k
  | [], k, _, c, hk, _, _ => by simp at hk
  | v :: rest, 0, rs, c, hk, hc, _ => by
    simp at hk
    subst hk
    simp [rowLoop_cons_stop hc]
  | v :: rest, k + 1, rs, c, hk, hc, hpre => by
    have hv : cellOk v = true := hpre 0 v (Nat.succ_pos k) rfl
    simp only [cellOk, Bool.and_eq_true, Bool.not_eq_true', Option.isSome_iff_exists] at hv
    obtain ⟨hm, f, hf⟩ := hv
    rw [rowLoop_cons_ok hm hf]
    simp only [List.length_cons]
    rw [rowLoop_length_of_fail rest k (pyAdd rs f) c hk hc
      (fun m c' hm' hg => hpre (m + 1) c' (Nat.succ_lt_succ hm') hg)]

/-! ### Shape of a processed row: recorded sums followed by padding -/

theorem processRow_eq (n : ℕ) (vals : List Cell) :
    processRow n vals = (rowLoop (.fin 0) vals).map some ++
      List.replicate (n - (rowLoop (.fin 0) vals).length) none := by
  simp [processRow]

theorem replicate_get?_none : ∀ (m t : ℕ), t < m →
    (List.replicate m (none : Option PyFloat)).get? t = some none
  | 0, t, ht => by omega
  | m + 1, 0, _ => rfl
  | m + 1, t + 1, ht => by
    simpa [List.replicate] using replicate_get?_none m t (by omega)

theorem processRow_length (n : ℕ) (vals : List Cell) :
    (processRow n vals).length =
      (rowLoop (.fin 0) vals).length + (n - (rowLoop (.fin 0) vals).length) := by
  simp [processRow_eq]

theorem processRow_get?_left (n : ℕ) (vals : List Cell) (i : ℕ)
    (hi : i < (rowLoop (.fin 0) vals).length) :
    (processRow n vals).get? i = ((rowLoop (.fin 0) vals).get? i).map some := by
  rw [processRow_eq, List.get?_append (by simpa using hi), List.get?_map]

theorem processRow_get?_pad (n : ℕ) (vals : List Cell) (i : ℕ)
    (h1 : (rowLoop (.fin 0) vals).length ≤ i) (h2 : i < n) :
    (processRow n vals).get? i = some none := by
  rw [processRow_eq, List.get?_append_right (by simpa using h1)]
  simp only [List.length_map]
  exact replicate_get?_none _ _ (by omega)

theorem processRow_getD_none_iff (n : ℕ) (vals : List Cell) (i : ℕ) :
    (processRow n vals).getD i none = none ↔
      (rowLoop (.fin 0) vals).length ≤ i := by
  constructor
  · intro h
    by_contra hlt
    push_neg at hlt
    rw [List.getD_eq_getElem?_getD, ← List.get?_eq_getElem?,
      processRow_get?_left n vals i hlt] at h
    rcases List.get?_eq_get hlt with hg
    rw [hg] at h
    simp at h
  · intro h
    by_cases h2 : i < (processRow n vals).length
    · rw [processRow_length] at h2
      rw [List.getD_eq_getElem?_getD, ← List.get?_eq_getElem?,
        processRow_get?_pad n vals i h (by omega)]
      rfl
    · push_neg at h2
      rw [List.getD_eq_getElem?_getD, ← List.get?_eq_getElem?,
        List.get?_eq_none.mpr h2]
      rfl

/-! ### The table pipeline -/

theorem buildRows_length (idxs : List ℕ) :
    ∀ (rows : List (List Cell)) (i : ℕ), (buildRows idxs i rows).length = rows.length
  | [], _ => rfl
  | row :: rest, i => by simp [buildRows, buildRows_length idxs rest]

theorem buildRows_get? (idxs : List ℕ) :
    ∀ (rows : List (List Cell)) (i m : ℕ),
      (buildRows idxs i rows).get? m = (rows.get? m).map (fun row => mkOutRow idxs (i + m) row)
  | [], i, m => by simp [buildRows]
  | row :: rest, i, 0 => by simp [buildRows]
  | row :: rest, i, m + 1 => by
    have h : i + (m + 1) = (i + 1) + m := by omega
    simp only [buildRows, List.get?_cons_succ, h]
    exact buildRows_get? idxs rest (i + 1) m

theorem mem_buildRows (idxs : List ℕ) {r : OutRow} :
    ∀ {rows : List (List Cell)} {i : ℕ}, r ∈ buildRows idxs i rows →
      ∃ m row, rows.get? m = some row ∧ r = mkOutRow idxs (i + m) row := by
  intro rows
  induction rows with
  | nil => intro i h; simp [buildRows] at h
  | cons row rest ih =>
    intro i h
    rcases List.mem_cons.mp h with h0 | h1
    · exact ⟨0, row, rfl, by simpa using h0⟩
    · obtain ⟨m, row', hg, hr⟩ := ih h1
      exact ⟨m + 1, row', hg, by rw [hr]; congr 1; omega⟩

theorem process_some_iff (df : DataFrame) (out : OutFrame) :
    process_gpr_excel df = some out ↔
      3 ≤ (layerIdxs df.header).length ∧
      out = { columns := "Chainage" ::
                (std_names.take ((layerIdxs df.header).take 4).length ++
                 (std_names.take ((layerIdxs df.header).take 4).length).map
                   (fun s => s ++ "_boundary"))
              rows := buildRows ((layerIdxs df.header).take 4) 0 df.rows } := by
  by_cases h : (layerIdxs df.header).length < 3
  · simp only [process_gpr_excel, h, if_true]
    constructor
    · intro habs; exact absurd habs (by simp)
    · intro ⟨h3, _⟩; omega
  · simp only [process_gpr_excel, h, if_false, Option.some.injEq]
    constructor
    · intro he; exact ⟨by omega, he.symm⟩
    · intro ⟨_, he⟩; exact he.symm

/-! ### Row-level results -/

theorem processRow_all_fin (n : ℕ) (vals : List Cell) (qs : List ℚ)
    (hqs : vals.map cellFin = qs.map some) (i : ℕ) (hi : i < qs.length) :
    (processRow n vals).get? i = some (some (.fin ((qs.take (i + 1)).sum))) := by
  have hloop := rowLoop_all_fin vals qs 0 hqs
  have hlen : (rowLoop (.fin 0) vals).length = qs.length := by
    rw [hloop, List.length_map, cumSumsFrom_length]
  rw [processRow_get?_left n vals i (by omega), hloop, List.get?_map,
    cumSumsFrom_get? qs 0 i hi]
  simp

theorem processRow_fail_pad (n : ℕ) (vals : List Cell) (k : ℕ) (c : Cell)
    (hk : vals.get? k = some c) (hbad : cellOk c = false)
    (hpre : ∀ m c', m < k → vals.get? m = some c' → cellOk c' = true)
    (j : ℕ) (hkj : k ≤ j) (hj : j < (processRow n vals).length) :
    (processRow n vals).get? j = some none := by
  have hlen := rowLoop_length_of_fail vals k (.fin 0) c hk hbad hpre
  rw [processRow_length, hlen] at hj
  exact processRow_get?_pad n vals j (by omega) (by omega)

theorem processRow_head_fail (n : ℕ) (c : Cell) (rest : List Cell)
    (hbad : cellOk c = false) :
    processRow n (c :: rest) = List.replicate n none := by
  simp [processRow, rowLoop_cons_stop hbad]

/-! ### The claims -/

/-- C1: for every row of a structurally valid input table in which every
layer cell parses as a finite number, the computed boundary vector satisfies
`boundary[i] = thickness[0] + ... + thickness[i]` for every `i` below the
number of layers, and in particular the last boundary entry equals the sum
of all layer values. -/
theorem C1_boundary_cumulative_sum (df : DataFrame) (out : OutFrame)
    (hdf : process_gpr_excel df = some out) (r : OutRow) (hr : r ∈ out.rows)
    (qs : List ℚ) (hqs : r.layers.map cellFin = qs.map some)
    (i : ℕ) (hi : i < qs.length) :
    r.boundary.get? i = some (some (.fin ((qs.take (i + 1)).sum))) ∧
    r.boundary.get? (qs.length - 1) = some (some (.fin qs.sum)) := by
  obtain ⟨h3, hout⟩ := (process_some_iff df out).mp hdf
  subst hout
  obtain ⟨m, row, hget, hrr⟩ := mem_buildRows _ hr
  subst hrr
  simp only [mkOutRow] at hqs ⊢
  refine ⟨processRow_all_fin _ _ qs hqs i hi, ?_⟩
  have hpos : 0 < qs.length := by omega
  have hlast := processRow_all_fin ((layerIdxs df.header).take 4).length
    (extractVals ((layerIdxs df.header).take 4) row) qs hqs (qs.length - 1) (by omega)
  rwa [Nat.sub_add_cancel hpos, List.take_length] at hlast

/-- Witness for C1 at the concrete table `dfNum` with layer values
`[1, 2, 4]`. -/
theorem C1_witness :
    rowNum.boundary.get? 2 = some (some (.fin ((([1, 2, 4] : List ℚ).take (2 + 1)).sum))) ∧
    rowNum.boundary.get? (([1, 2, 4] : List ℚ).length - 1) =
      some (some (.fin ([1, 2, 4] : List ℚ).sum)) :=
  C1_boundary_cumulative_sum dfNum outNum (by decide) rowNum (by decide)
    [1, 2, 4] (by decide) 2 (by decide)

/-- C2: the boundary vector of every output row is monotonically truncated:
once a slot is undefined, every later slot is undefined as well. -/
theorem C2_monotonic_truncation (df : DataFrame) (out : OutFrame)
    (hdf : process_gpr_excel df = some out) (r : OutRow) (hr : r ∈ out.rows)
    (i j : ℕ) (hij : i < j) (hi : r.boundary.getD i none = none) :
    r.boundary.getD j none = none := by
  obtain ⟨h3, hout⟩ := (process_some_iff df out).mp hdf
  subst hout
  obtain ⟨m, row, hget, hrr⟩ := mem_buildRows _ hr
  subst hrr
  simp only [mkOutRow] at hi ⊢
  rw [processRow_getD_none_iff] at hi ⊢
  omega

/-- Witness for C2 at the row `[10, missing, 7]` of `dfGap`: slot 1 is
undefined, hence so is slot 2. -/
theorem C2_witness : rowGap.boundary.getD 2 none = none :=
  C2_monotonic_truncation dfGap outGap (by decide) rowGap (by decide)
    1 2 (by decide) (by decide)

/-- C3: on the row `[10, missing, 7]`, the computed boundaries are
`[10, undefined, undefined]`: the missing value truncates and the numeric
`7` after the gap is ignored. -/
theorem C3_gap_row : (process_gpr_excel dfGap).map (fun o => o.rows.map OutRow.boundary) =
    some [[some (.fin 10), none, none]] := by decide

/-- C4: in every output row, if the cells before position `k` all parse and
the cell at position `k` is missing or unparseable, then every boundary slot
from `k` on is undefined (the per-cell failure is absorbed; the model is a
total function, so no error propagates). -/
theorem C4_parse_failure_truncates (df : DataFrame) (out : OutFrame)
    (hdf : process_gpr_excel df = some out) (r : OutRow) (hr : r ∈ out.rows)
    (k : ℕ) (c : Cell) (hk : r.layers.get? k = some c) (hbad : cellOk c = false)
    (hpre : ∀ m c', m < k → r.layers.get? m = some c' → cellOk c' = true)
    (j : ℕ) (hkj : k ≤ j) (hj : j < r.boundary.length) :
    r.boundary.get? j = some none := by
  obtain ⟨h3, hout⟩ := (process_some_iff df out).mp hdf
  subst hout
  obtain ⟨m, row, hget, hrr⟩ := mem_buildRows _ hr
  subst hrr
  simp only [mkOutRow] at hk hpre hj ⊢
  exact processRow_fail_pad _ _ k c hk hbad hpre j hkj hj

/-- Witness for C4 at the row `[10, missing, 7]` of `dfGap`: the failure at
position 1 makes slot 2 undefined. -/
theorem C4_witness : rowGap.boundary.get? 2 = some none :=
  C4_parse_failure_truncates dfGap outGap (by decide) rowGap (by decide)
    1 .nanCell (by decide) (by decide)
    (fun m c' hm hg => by
      have hm0 : m = 0 := by omega
      subst hm0
      have hc : c' = Cell.num 10 := by
        have : (rowGap.layers.get? 0) = some (Cell.num 10) := by decide
        rw [this] at hg
        exact (Option.some.injEq _ _).mp hg.symm
      subst hc
      decide)
    2 (by decide) (by decide)

/-- C5: the computation fails (reports the "insufficient columns" error and
returns no output table) exactly when fewer than 3 normalized column names
contain `"layer"`; in particular a structurally valid table always yields an
output table, so the two conditions are distinguishable. -/
theorem C5_insufficient_columns (df : DataFrame) :
    process_gpr_excel df = none ↔ (layerIdxs df.header).length < 3 := by
  by_cases h : (layerIdxs df.header).length < 3 <;> simp [process_gpr_excel, h]

/-- C6: the chainage of the output row at 0-based index `i` is
`(i + 1) * 0.25`, whatever the row's layer cells contain. -/
theorem C6_chainage (df : DataFrame) (out : OutFrame)
    (hdf : process_gpr_excel df = some out) (i : ℕ) (r : OutRow)
    (hi : out.rows.get? i = some r) :
    r.chainage = ((i : ℚ) + 1) * 0.25 := by
  obtain ⟨h3, hout⟩ := (process_some_iff df out).mp hdf
  subst hout
  simp only [buildRows_get?] at hi
  obtain ⟨row, hrow, hr⟩ := Option.map_eq_some'.mp hi
  rw [← hr]
  simp [mkOutRow]

/-- Witness for C6: the first row of `dfNum` has chainage `0.25`. -/
theorem C6_witness : rowNum.chainage = (((0 : ℕ) : ℚ) + 1) * 0.25 :=
  C6_chainage dfNum outNum (by decide) 0 rowNum (by decide)

/-- C7: the output has exactly one row per input row, in order (row `i` of
the output is computed from row `i` of the input), and a row whose first
layer cell fails to parse is still emitted, with an all-undefined boundary
vector. -/
theorem C7_rows_preserved (df : DataFrame) (out : OutFrame)
    (hdf : process_gpr_excel df = some out) :
    out.rows.length = df.rows.length ∧
    (∀ i row, df.rows.get? i = some row →
      out.rows.get? i = some (mkOutRow ((layerIdxs df.header).take 4) i row)) ∧
    (∀ r ∈ out.rows, ∀ c, r.layers.get? 0 = some c → cellOk c = false →
      r.boundary = List.replicate r.layers.length none) := by
  obtain ⟨h3, hout⟩ := (process_some_iff df out).mp hdf
  subst hout
  refine ⟨buildRows_length _ df.rows 0, ?_, ?_⟩
  · intro i row hrow
    rw [buildRows_get? _ df.rows 0 i, hrow, Option.map_some']
    simp
  · intro r hr c h0 hbad
    obtain ⟨m, row, hget, hrr⟩ := mem_buildRows _ hr
    subst hrr
    simp only [mkOutRow] at h0 ⊢
    cases hv : extractVals ((layerIdxs df.header).take 4) row with
    | nil => rw [hv] at h0; simp at h0
    | cons c0 rest =>
      rw [hv] at h0
      simp only [List.get?_cons_zero, Option.some.injEq] at h0
      subst h0
      have hn : ((layerIdxs df.header).take 4).length = (c0 :: rest).length := by
        rw [← hv]; simp [extractVals]
      rw [processRow_head_fail ((layerIdxs df.header).take 4).length c0 rest hbad, hn]

/-- Witness for C7 at `dfFirstGap`, whose single row `[missing, 5, 3]` is
emitted with an all-undefined boundary vector. -/
theorem C7_witness :
    outFirstGap.rows.length = dfFirstGap.rows.length ∧
    rowFirstGap.boundary = List.replicate rowFirstGap.layers.length none :=
  ⟨(C7_rows_preserved dfFirstGap outFirstGap (by decide)).1,
   (C7_rows_preserved dfFirstGap outFirstGap (by decide)).2.2 rowFirstGap (by decide)
     .nanCell (by decide) (by decide)⟩

/-- C8 counterexample: on `dfNamed`, whose layer columns are named
`asphalt layer`, `base layer`, `subbase layer`, the output columns are the
standardized names, and neither the input layer name `asphalt layer` nor a
lowercase `chainage` column appears — refuting the claim that the
passthrough columns carry the input layer's name. -/
theorem C8_counterexample :
    (process_gpr_excel dfNamed).map OutFrame.columns = some cols3 ∧
    "asphalt layer" ∉ cols3 ∧ "chainage" ∉ cols3 := by decide

/-- C8 (amended): the output schema is a derived `Chainage` column, then one
passthrough column per selected layer column renamed to the standardized
name `Layer i`, then one `Layer i_boundary` column per layer, with the
layer columns and their boundary columns in input order; row `i` carries the
cells of input row `i` at the selected layer columns, unchanged. -/
theorem C8_amended_schema (df : DataFrame) (out : OutFrame)
    (hdf : process_gpr_excel df = some out) :
    out.columns = "Chainage" ::
      (std_names.take ((layerIdxs df.header).take 4).length ++
       (std_names.take ((layerIdxs df.header).take 4).length).map
         (fun s => s ++ "_boundary")) ∧
    (∀ i row, df.rows.get? i = some row →
      out.rows.get? i = some (mkOutRow ((layerIdxs df.header).take 4) i row) ∧
      (mkOutRow ((layerIdxs df.header).take 4) i row).layers =
        extractVals ((layerIdxs df.header).take 4) row) := by
  obtain ⟨h3, hout⟩ := (process_some_iff df out).mp hdf
  subst hout
  refine ⟨rfl, ?_⟩
  intro i row hrow
  exact ⟨by rw [buildRows_get? _ df.rows 0 i, hrow, Option.map_some']; simp, rfl⟩

/-- Witness for the amended C8 at `dfNamed`. -/
theorem C8_amended_witness :
    outNamed.columns = "Chainage" ::
      (std_names.take ((layerIdxs dfNamed.header).take 4).length ++
       (std_names.take ((layerIdxs dfNamed.header).take 4).length).map
         (fun s => s ++ "_boundary")) :=
  (C8_amended_schema dfNamed outNamed (by decide)).1

theorem extractVals_congr : ∀ (idxs : List ℕ) (a b : List Cell),
    (∀ j ∈ idxs, a.getD j Cell.nanCell = b.getD j Cell.nanCell) →
    extractVals idxs a = extractVals idxs b
  | [], _, _, _ => rfl
  | j :: rest, a, b, h => by
    have ht := extractVals_congr rest a b (fun x hx => h x (List.mem_cons_of_mem _ hx))
    simp only [extractVals, List.map_cons] at ht ⊢
    rw [h j (List.mem_cons_self _ _), ht]

theorem buildRows_congr (idxs : List ℕ) {rows rows' : List (List Cell)}
    (h : List.Forall₂ (fun r r' => ∀ j ∈ idxs,
      r.getD j Cell.nanCell = r'.getD j Cell.nanCell) rows rows') :
    ∀ (i : ℕ), buildRows idxs i rows = buildRows idxs i rows' := by
  induction h with
  | nil => intro i; rfl
  | cons hhead htail ih =>
    intro i
    simp only [buildRows]
    rw [ih (i + 1)]
    congr 1
    simp only [mkOutRow]
    rw [extractVals_congr idxs _ _ hhead]

/-- C9: when five or more normalized column names contain `"layer"`, only the
first four are processed: the output has exactly the four standardized layer
columns and four boundary columns, and tables agreeing on the cells of the
first four layer columns produce identical outputs — the fifth and later
layer columns have no effect on any output value. -/
theorem C9_only_first_four (df df' : DataFrame)
    (h5 : 5 ≤ (layerIdxs df.header).length)
    (hh : df'.header = df.header)
    (hagree : List.Forall₂ (fun r r' => ∀ j ∈ (layerIdxs df.header).take 4,
        r.getD j Cell.nanCell = r'.getD j Cell.nanCell) df.rows df'.rows) :
    (process_gpr_excel df).map OutFrame.columns =
      some ["Chainage", "Layer 1", "Layer 2", "Layer 3", "Layer 4",
            "Layer 1_boundary", "Layer 2_boundary", "Layer 3_boundary",
            "Layer 4_boundary"] ∧
    process_gpr_excel df' = process_gpr_excel df := by
  have hk : ((layerIdxs df.header).take 4).length = 4 := by
    rw [List.length_take]; omega
  have h3 : ¬ (layerIdxs df.header).length < 3 := by omega
  constructor
  · simp only [process_gpr_excel]
    rw [if_neg h3, hk]
    have hcols : ("Chainage" :: (std_names.take 4 ++
        (std_names.take 4).map (fun s => s ++ "_boundary")) : List String) =
        ["Chainage", "Layer 1", "Layer 2", "Layer 3", "Layer 4",
         "Layer 1_boundary", "Layer 2_boundary", "Layer 3_boundary",
         "Layer 4_boundary"] := by decide
    simp only [Option.map_some']
    exact congrArg some hcols
  · have hb := (buildRows_congr ((layerIdxs df.header).take 4) hagree 0).symm
    simp only [process_gpr_excel, hh]
    rw [if_neg h3, if_neg h3, hb]

/-- Witness for C9 at the five-layer-column tables `dfFiveA`/`dfFiveB`,
which differ only in the fifth layer column. -/
theorem C9_witness :
    (process_gpr_excel dfFiveA).map OutFrame.columns =
      some ["Chainage", "Layer 1", "Layer 2", "Layer 3", "Layer 4",
            "Layer 1_boundary", "Layer 2_boundary", "Layer 3_boundary",
            "Layer 4_boundary"] ∧
    process_gpr_excel dfFiveB = process_gpr_excel dfFiveA :=
  C9_only_first_four dfFiveA dfFiveB (by decide) rfl
    (List.Forall₂.cons (by decide) List.Forall₂.nil)

/-- C10: a layer cell holding a string that Python's `float()` accepts is
not treated as missing: `float()` converts it, the result is added to the
running sum, and the loop continues — this includes the strings `"inf"`,
`"-inf"` and `"nan"`, which convert without error and do not truncate. -/
theorem C10_parseable_string (sv : StrVal) (hsv : sv ≠ StrVal.bad)
    (rs : PyFloat) (rest : List Cell) :
    isMissing (Cell.str sv) = false ∧
    ∃ f, tryFloat (Cell.str sv) = some f ∧
      rowLoop rs (Cell.str sv :: rest) = pyAdd rs f :: rowLoop (pyAdd rs f) rest := by
  cases sv with
  | numStr q =>
    exact ⟨rfl, .fin q, rfl,
      rowLoop_cons_ok (show isMissing (Cell.str (.numStr q)) = false from rfl)
        (show tryFloat (Cell.str (.numStr q)) = some (.fin q) from rfl) rs rest⟩
  | infStr =>
    exact ⟨rfl, .pinf, rfl,
      rowLoop_cons_ok (show isMissing (Cell.str .infStr) = false from rfl)
        (show tryFloat (Cell.str .infStr) = some .pinf from rfl) rs rest⟩
  | ninfStr =>
    exact ⟨rfl, .ninf, rfl,
      rowLoop_cons_ok (show isMissing (Cell.str .ninfStr) = false from rfl)
        (show tryFloat (Cell.str .ninfStr) = some .ninf from rfl) rs rest⟩
  | nanStr =>
    exact ⟨rfl, .nan, rfl,
      rowLoop_cons_ok (show isMissing (Cell.str .nanStr) = false from rfl)
        (show tryFloat (Cell.str .nanStr) = some .nan from rfl) rs rest⟩
  | bad => exact absurd rfl hsv

/-- Witness for C10 at the string cell `"inf"` at the head of a row. -/
theorem C10_witness :
    isMissing (Cell.str .infStr) = false ∧
    ∃ f, tryFloat (Cell.str .infStr) = some f ∧
      rowLoop (.fin 0) (Cell.str .infStr :: [Cell.num 2]) =
        pyAdd (.fin 0) f :: rowLoop (pyAdd (.fin 0) f) [Cell.num 2] :=
  C10_parseable_string .infStr (by decide) (.fin 0) [Cell.num 2]
